import Mathlib

/-!
Verification of the trustable-grimoirelab-cli repository.

Two components are embedded:

* The metrics engine (`GitEventsAnalyzer` of `trustable_cli/metrics.py`).
  Only its unit tests ship in the sources, so the engine itself is
  modelled from the specification (section 4 of the spec); definitions
  for it carry a doc comment starting `Modelled from the spec:`.
* The HTTP client (`trustable_cli/grimoirelab_client.py`), embedded
  directly from the source, with the network modelled as an oracle
  mapping a global request counter to an outcome.
-/

namespace Metrics

/-- Modelled from the spec: a `FileChange` of one accepted commit event,
already classified into a category (`Code` or `Other`), with its added
and removed line counts (spec section 3, `FileChange`).  The extension
allowlist that produces the category lives in `trustable_cli/metrics.py`,
which is absent from the sources. -/
structure FileChange where
  category : String
  added : Nat
  removed : Nat
deriving DecidableEq

/-- Modelled from the spec: a `CommitRecord`, one per accepted commit
event — exact contributor identity string, organization (email domain),
message length, and the file changes (spec section 3, `CommitRecord`).
The envelope filtering and author parsing of spec section 4.1 happen
upstream of every claimed property, so the model starts from accepted
records. -/
structure CommitRecord where
  identity : String
  org : String
  msgLen : Nat
  files : List FileChange
deriving DecidableEq

/-- Modelled from the spec: the mutable aggregate owned by one analyzer
instance — total commit count, both ledgers in first-seen insertion
order, line totals, file-category counts and the message-length sequence
(spec section 3, `AnalyzerState` and `ContributorAggregate`). -/
structure GitEventsAnalyzer where
  commitTotal : Nat
  contributors : List (String × Nat)
  organizations : List (String × Nat)
  addedLines : Nat
  removedLines : Nat
  fileCats : List (String × Nat)
  msgLengths : List Nat
deriving DecidableEq

/-- Modelled from the spec: the empty state both ledgers and the
aggregate start from when the engine is constructed (spec section 3,
Lifecycle). -/
def emptyAnalyzer : GitEventsAnalyzer :=
  ⟨0, [], [], 0, 0, [], []⟩

/-- Modelled from the spec: increment the counter of `key` in an
insertion-ordered ledger, creating a new entry on first sight
(spec section 4.2, `record`). -/
def bump (key : String) : List (String × Nat) → List (String × Nat)
  | [] => [(key, 1)]
  | (k, c) :: rest =>
    if k = key then (k, c + 1) :: rest else (k, c) :: bump key rest

/-- Modelled from the spec: absorb the file changes of one commit into
the category-count ledger, one change per file (spec section 4.1). -/
def bumpFiles : List (String × Nat) → List FileChange → List (String × Nat)
  | cats, [] => cats
  | cats, f :: fs => bumpFiles (bump f.category cats) fs

/-- Modelled from the spec: ingest one accepted commit record, mutating
both ledgers and the aggregate totals (spec sections 4.1 and 4.2). -/
def processCommit (a : GitEventsAnalyzer) (r : CommitRecord) : GitEventsAnalyzer where
  commitTotal := a.commitTotal + 1
  contributors := bump r.identity a.contributors
  organizations := bump r.org a.organizations
  addedLines := a.addedLines + ((r.files.map FileChange.added).sum)
  removedLines := a.removedLines + ((r.files.map FileChange.removed).sum)
  fileCats := bumpFiles a.fileCats r.files
  msgLengths := a.msgLengths ++ [r.msgLen]

/-- Modelled from the spec: `process_events` merges a batch into the
existing totals, never resetting (spec section 3, Lifecycle). -/
def processEvents (a : GitEventsAnalyzer) (rs : List CommitRecord) : GitEventsAnalyzer :=
  List.foldl processCommit a rs

/-- The analyzer state reached from a fresh engine after ingesting `rs`. -/
def analyzerOf (rs : List CommitRecord) : GitEventsAnalyzer :=
  processEvents emptyAnalyzer rs

/-- Modelled from the spec: stable descending insertion used by
`ranked_by_count` — an element is placed before the first entry with a
count less than or equal to its own, so earlier (first-seen) entries win
ties (spec section 4.2). -/
def insertRanked (x : String × Nat) : List (String × Nat) → List (String × Nat)
  | [] => [x]
  | y :: ys => if y.2 ≤ x.2 then x :: y :: ys else y :: insertRanked x ys

/-- Modelled from the spec: `ranked_by_count` — entries sorted by
descending count, ties broken by first-seen insertion order
(spec section 4.2). -/
def ranked_by_count (l : List (String × Nat)) : List (String × Nat) :=
  List.foldr insertRanked [] l

/-- Modelled from the spec: `commit_count()` (spec section 4.3). -/
def get_commit_count (a : GitEventsAnalyzer) : Nat :=
  a.commitTotal

/-- Modelled from the spec: `contributor_count()` (spec section 4.3). -/
def get_contributor_count (a : GitEventsAnalyzer) : Nat :=
  a.contributors.length

/-- Modelled from the spec: walk a ranked ledger accumulating counts and
return the number of entries consumed when the accumulated count first
reaches half of `total`; `acc + c ≥ ⌈total / 2⌉` is expressed without
division as `total ≤ 2 * (acc + c)` (spec section 4.3, `pony_factor`). -/
def ponyWalk (total : Nat) : List (String × Nat) → Nat → Nat
  | [], _ => 0
  | (_, c) :: rest, acc =>
    if total ≤ 2 * (acc + c) then 1 else 1 + ponyWalk total rest (acc + c)

/-- Modelled from the spec: `pony_factor()` — smallest k such that the
top-k contributors by `ranked_by_count` hold at least half of all
commits; 0 when no commits were processed (spec section 4.3). -/
def get_pony_factor (a : GitEventsAnalyzer) : Nat :=
  if a.commitTotal = 0 then 0
  else ponyWalk a.commitTotal (ranked_by_count a.contributors) 0

/-- Modelled from the spec: `elephant_factor()` — the identical
algorithm applied to the organization ledger (spec section 4.3). -/
def get_elephant_factor (a : GitEventsAnalyzer) : Nat :=
  if a.commitTotal = 0 then 0
  else ponyWalk a.commitTotal (ranked_by_count a.organizations) 0

/-- Modelled from the spec: `file_type_metrics()` — the category-count
mapping, empty when no commits were processed (spec section 4.3). -/
def get_file_type_metrics (a : GitEventsAnalyzer) : List (String × Nat) :=
  a.fileCats

/-- Modelled from the spec: `commit_size_metrics()` as the pair
`(added_lines, removed_lines)` (spec section 4.3). -/
def get_commit_size_metrics (a : GitEventsAnalyzer) : Nat × Nat :=
  (a.addedLines, a.removedLines)

/-- Modelled from the spec: the category walk of
`developer_categories()` — after including a contributor with cumulative
count `acc2`, the tier is `core` while `acc2 / total ≤ 0.80`
(equivalently `5 * acc2 ≤ 4 * total`), `regular` while
`acc2 / total ≤ 0.95` (equivalently `20 * acc2 ≤ 19 * total`), otherwise
`casual`; the result triple is `(core, regular, casual)`
(spec section 4.3). -/
def catWalk (total : Nat) : List (String × Nat) → Nat → Nat × Nat × Nat
  | [], _ => (0, 0, 0)
  | (_, c) :: rest, acc =>
    let acc2 := acc + c
    let r := catWalk total rest acc2
    if 5 * acc2 ≤ 4 * total then (r.1 + 1, r.2.1, r.2.2)
    else if 20 * acc2 ≤ 19 * total then (r.1, r.2.1 + 1, r.2.2)
    else (r.1, r.2.1, r.2.2 + 1)

/-- Modelled from the spec: `developer_categories()` as the triple
`(core, regular, casual)`; all zero when no commits were processed
(spec section 4.3). -/
def get_developer_categories (a : GitEventsAnalyzer) : Nat × Nat × Nat :=
  if a.commitTotal = 0 then (0, 0, 0)
  else catWalk a.commitTotal (ranked_by_count a.contributors) 0

/-- Modelled from the spec: `average_commits_week(days_interval)` —
`commit_count / days_interval / 7` over the rationals; `days_interval`
equal to 0 raises a divide-by-zero error, modelled as `Except.error ()`
(spec section 4.3). -/
def get_average_commits_week (a : GitEventsAnalyzer) (days_interval : Nat) :
    Except Unit ℚ :=
  if days_interval = 0 then Except.error ()
  else Except.ok ((a.commitTotal : ℚ) / (days_interval : ℚ) / 7)

/-- Sum of the counts of the first `k` entries of a ledger. -/
def topSum : List (String × Nat) → Nat → Nat
  | _, 0 => 0
  | [], _ + 1 => 0
  | x :: l, k + 1 => x.2 + topSum l k

/-- Sum of all counts of a ledger. -/
def countSum (l : List (String × Nat)) : Nat :=
  (l.map Prod.snd).sum

/-- Modelled from the spec: the 9-commit, 3-contributor fixture of
`data/events.json` (absent from the sources), reconstructed from the
spec's concrete scenarios: per-contributor commit counts 5, 3 and 1 are
the unique multiplicities consistent with scenarios 4, 5 and 8 of spec
section 8; message lengths and file changes are irrelevant to every
claimed property of this fixture and are left empty. -/
def fixture9 : List CommitRecord :=
  List.replicate 5 ⟨"Author 1 <author1@example.com>", "example.com", 0, []⟩ ++
  List.replicate 3 ⟨"Author 2 <author2@example.com>", "example.com", 0, []⟩ ++
  List.replicate 1 ⟨"Author 3 <author3@example.org>", "example.org", 0, []⟩

/-- The three extra commits of one new identity added after the fixture
in `test_get_pony_factor` (`src/tests/unit/test_metrics.py`). -/
def extra3 : List CommitRecord :=
  List.replicate 3 ⟨"Author 1 <author1@example2.com>", "example2.com", 0, []⟩

/-- The four extra commits of one new identity added after the fixture
in `test_get_developer_categories` (`src/tests/unit/test_metrics.py`). -/
def extra4 : List CommitRecord :=
  List.replicate 4 ⟨"Author 1 <author1@example_new.com>", "example_new.com", 0, []⟩

end Metrics

namespace Client

/-- An HTTP response as the client observes it: the status code and the
two JSON body fields the client ever reads (`access` and `refresh` of
the token endpoints); a missing field is `none`, matching
`data.get(...)` returning `None`. -/
structure Response where
  status : Nat
  access : Option String
  refresh : Option String
deriving DecidableEq

/-- Outcome of one call to `self.session.request`: a reply (of any
status) or a raised `requests.ConnectionError` / `requests.Timeout`,
tagged with an identity so that "raised unchanged" is expressible. -/
inductive Outcome where
  | reply (resp : Response)
  | connErr (id : Nat)
  | timeout (id : Nat)
deriving DecidableEq

/-- The exceptions that can escape the embedded client code:
`ValueError` from the missing-session guard, `requests.HTTPError` raised
by `raise_for_status` (carrying its response), the two transport errors,
`noneResponse` for an `AttributeError` on an implicit `None` return
(unreachable in the modelled scenarios) and `outOfFuel` marking
exhaustion of the recursion-depth fuel of the model. -/
inductive ReqError where
  | valueError
  | httpExc (resp : Response)
  | connectionError (id : Nat)
  | timeoutError (id : Nat)
  | noneResponse
  | outOfFuel
deriving DecidableEq

/-- A `requests.Session`, reduced to the one header the client manages:
the full value of the `Authorization` header, `none` when unset. -/
structure Session where
  auth : Option String
deriving DecidableEq

/-- The attributes of a `GrimoireLabClient` instance; `token` and
`refreshToken` embed `_token` and `_refresh_token`, with Python `None`
as `none`. -/
structure ClientState where
  url : String
  user : Option String
  password : Option String
  session : Option Session
  token : Option String
  refreshToken : Option String
deriving DecidableEq

/-- Embeds `GrimoireLabClient.__init__`. -/
def clientInit (url : String) (user password : Option String) : ClientState :=
  ⟨url, user, password, none, none, none⟩

/-- One request as issued on the wire: HTTP method, URI, and the
`Authorization` header the session carried at that moment. -/
structure Request where
  method : String
  uri : String
  auth : Option String
deriving DecidableEq

/-- The execution state threaded through the model: the client's
attributes, the global request counter indexing the server oracle, the
log of requests issued so far and the log of `time.sleep` delays. -/
structure MState where
  client : ClientState
  count : Nat
  reqLog : List Request
  sleeps : List Nat
deriving DecidableEq

/-- A fresh execution state for a client. -/
def initMState (c : ClientState) : MState :=
  ⟨c, 0, [], []⟩

/-- Python truthiness of an optional string (`None` and `""` are
falsy). -/
def truthy : Option String → Bool
  | none => false
  | some s => s != ""

/-- The header value `f"Bearer {tok}"`; Python interpolates `None` as
the text `None`. -/
def bearer : Option String → String
  | some s => "Bearer " ++ s
  | none => "Bearer None"

/-- The `Authorization` header the current session would attach, `none`
when there is no session or no header. -/
def sessionAuth (c : ClientState) : Option String :=
  match c.session with
  | some s => s.auth
  | none => none

/-- One call to `self.session.request(method, url, ...)`: consume the
server oracle's outcome for the current counter value and log the
request together with the header it carried. -/
def doRequest (server : Nat → Outcome) (st : MState) (method uri : String) :
    Outcome × MState :=
  (server st.count,
   { st with
      count := st.count + 1,
      reqLog := st.reqLog ++ [⟨method, uri, sessionAuth st.client⟩] })

/-- Embeds `GrimoireLabClient._reconnect`: a fresh `requests.Session`, with the
`Authorization` header restored only when `self._token` is truthy. -/
def reconnectClient (c : ClientState) : ClientState :=
  { c with session := some ⟨if truthy c.token then some (bearer c.token) else none⟩ }

/-- The tail of `GrimoireLabClient._refresh_auth_token` after a
successful `raise_for_status`: store `data.get("access")` as the token
and update the session's `Authorization` header. -/
def updateAfterRefresh (c : ClientState) (resp : Response) : ClientState :=
  { c with
     token := resp.access,
     session := c.session.map fun s => { s with auth := some (bearer resp.access) } }

/-- Embeds `GrimoireLabClient._refresh_auth_token`, parameterised by the nested
`self.post("token/refresh/", ...)` call `mk`: an exception from the
nested request propagates, `raise_for_status` raises on an error status,
and otherwise the token and header are updated.  `none` in the first
component means the refresh returned normally. -/
def refreshAuthToken (mk : MState → (Except ReqError (Option Response)) × MState)
    (st : MState) : Option ReqError × MState :=
  match mk st with
  | (Except.error e, st1) => (some e, st1)
  | (Except.ok none, st1) => (some ReqError.noneResponse, st1)
  | (Except.ok (some resp), st1) =>
    if 400 ≤ resp.status then (some (ReqError.httpExc resp), st1)
    else (none, { st1 with client := updateAfterRefresh st1.client resp })

/-- Embeds `MAX_RETRIES` of `trustable_cli/grimoirelab_client.py`. -/
def MAX_RETRIES : Nat := 5

/-- The `for attempt in range(MAX_RETRIES)` loop of
`GrimoireLabClient._make_request`, parameterised by the refresh handler
`doRefresh`.  `remaining` counts the iterations left, `attempt` is the
Python loop index, `last` is `last_exception`.  A reply below status 400
is returned; an error reply is returned after a token refresh when its
status is 403 and a refresh token is truthy (an exception escaping the
refresh propagates); a transport error reconnects the session, records
the exception, sleeps `2 ** attempt` and continues.  Falling off the
loop returns `last_exception` as an exception when one was recorded,
else Python's implicit `None` (`Except.ok none`). -/
def attemptLoop (server : Nat → Outcome)
    (doRefresh : MState → Option ReqError × MState) (method uri : String) :
    Nat → Nat → Option ReqError → MState → (Except ReqError (Option Response)) × MState
  | 0, _, last, st =>
    match last with
    | some e => (Except.error e, st)
    | none => (Except.ok none, st)
  | remaining + 1, attempt, _, st =>
    match doRequest server st method uri with
    | (Outcome.reply resp, st1) =>
      if resp.status < 400 then (Except.ok (some resp), st1)
      else if resp.status == 403 && truthy st1.client.refreshToken then
        match doRefresh st1 with
        | (some e, st2) => (Except.error e, st2)
        | (none, st2) => (Except.ok (some resp), st2)
      else (Except.ok (some resp), st1)
    | (Outcome.connErr id, st1) =>
      attemptLoop server doRefresh method uri remaining (attempt + 1)
        (some (ReqError.connectionError id))
        { st1 with
           client := reconnectClient st1.client,
           sleeps := st1.sleeps ++ [2 ^ attempt] }
    | (Outcome.timeout id, st1) =>
      attemptLoop server doRefresh method uri remaining (attempt + 1)
        (some (ReqError.timeoutError id))
        { st1 with
           client := reconnectClient st1.client,
           sleeps := st1.sleeps ++ [2 ^ attempt] }

/-- Embeds `GrimoireLabClient._make_request` (the shared body of `get` and
`post`): raise `ValueError` when no session exists, otherwise run the
retry loop; the refresh handler posts to `token/refresh/` through
`_make_request` itself, with `fuel` bounding that recursion depth. -/
def makeRequest : Nat → (Nat → Outcome) → MState → String → String →
    (Except ReqError (Option Response)) × MState
  | 0, _, st, _, _ => (Except.error ReqError.outOfFuel, st)
  | fuel + 1, server, st, method, uri =>
    match st.client.session with
    | none => (Except.error ReqError.valueError, st)
    | some _ =>
      attemptLoop server
        (refreshAuthToken fun s => makeRequest fuel server s "post" "token/refresh/")
        method uri MAX_RETRIES 0 none st

/-- Embeds `GrimoireLabClient.connect`: install a fresh session; without truthy
credentials return at once; otherwise post the credentials to `token/`,
raise on an error status, store the `access` and `refresh` tokens and
set the `Authorization` header.  `none` in the first component means
`connect` returned normally. -/
def connect (fuel : Nat) (server : Nat → Outcome) (st : MState) :
    Option ReqError × MState :=
  let st1 := { st with client := { st.client with session := some ⟨none⟩ } }
  if truthy st1.client.user && truthy st1.client.password then
    match makeRequest fuel server st1 "post" "token/" with
    | (Except.error e, st2) => (some e, st2)
    | (Except.ok none, st2) => (some ReqError.noneResponse, st2)
    | (Except.ok (some resp), st2) =>
      if 400 ≤ resp.status then (some (ReqError.httpExc resp), st2)
      else
        (none,
         { st2 with
            client :=
              { st2.client with
                 token := resp.access,
                 refreshToken := resp.refresh,
                 session := st2.client.session.map fun s =>
                   { s with auth := some (bearer resp.access) } } })
  else (none, st1)

end Client

namespace Client

/-- The exception a transport outcome raises (`none` for a reply). -/
def transportExc : Outcome → Option ReqError
  | Outcome.reply _ => none
  | Outcome.connErr id => some (ReqError.connectionError id)
  | Outcome.timeout id => some (ReqError.timeoutError id)

/-- The `Authorization` header value a session freshly created by
`_reconnect` carries. -/
def reconnectAuth (c : ClientState) : Option String :=
  if truthy c.token then some (bearer c.token) else none

/-- The execution state right after one wire request has been issued. -/
def afterRequest (st : MState) (method uri : String) : MState :=
  { st with
     count := st.count + 1,
     reqLog := st.reqLog ++ [⟨method, uri, sessionAuth st.client⟩] }

/-- A connected client holding access token `T0` and refresh token
`R0`, as a successful authenticated `connect` leaves it. -/
def cexClient : ClientState :=
  ⟨"http://gl", some "user", some "pass", some ⟨some "Bearer T0"⟩, some "T0", some "R0"⟩

/-- A fresh execution state for `cexClient`. -/
def cexState : MState := initMState cexClient

/-- Server script: 403 on the first request, a successful token refresh
on the second, success on every later request. -/
def serverRefreshOk : Nat → Outcome
  | 0 => Outcome.reply ⟨403, none, none⟩
  | 1 => Outcome.reply ⟨200, some "T1", none⟩
  | _ + 2 => Outcome.reply ⟨200, none, none⟩

/-- Server script: 403 on the first request, 500 on every later one (in
particular on the token refresh). -/
def serverRefreshFail : Nat → Outcome
  | 0 => Outcome.reply ⟨403, none, none⟩
  | _ + 1 => Outcome.reply ⟨500, none, none⟩

/-- Server script: the request at counter `n` raises a connection error
with identity `n + 10`. -/
def serverConnFail : Nat → Outcome := fun n => Outcome.connErr (n + 10)

/-- Server script: every request is answered 404. -/
def server404 : Nat → Outcome := fun _ => Outcome.reply ⟨404, none, none⟩

end Client

namespace Metrics

lemma countSum_nil : countSum [] = 0 := rfl

lemma countSum_cons (x : String × Nat) (l : List (String × Nat)) :
    countSum (x :: l) = x.2 + countSum l := by
  simp [countSum]

lemma topSum_zero (l : List (String × Nat)) : topSum l 0 = 0 := by
  cases l <;> rfl

lemma topSum_cons (x : String × Nat) (l : List (String × Nat)) (k : Nat) :
    topSum (x :: l) (k + 1) = x.2 + topSum l k := rfl

lemma bump_countSum (key : String) (l : List (String × Nat)) :
    countSum (bump key l) = countSum l + 1 := by
  induction l with
  | nil => simp [bump, countSum]
  | cons y ys ih =>
    by_cases h : y.1 = key
    · simp [bump, h, countSum_cons]
      omega
    · simp [bump, h, countSum_cons, ih]
      omega

lemma processEvents_total (rs : List CommitRecord) :
    ∀ a : GitEventsAnalyzer,
      (processEvents a rs).commitTotal = a.commitTotal + rs.length := by
  induction rs with
  | nil => intro a; simp [processEvents]
  | cons r rest ih =>
    intro a
    show (processEvents (processCommit a r) rest).commitTotal = _
    rw [ih (processCommit a r)]
    simp [processCommit]
    omega

lemma analyzerOf_total (rs : List CommitRecord) :
    (analyzerOf rs).commitTotal = rs.length := by
  rw [analyzerOf, processEvents_total]
  simp [emptyAnalyzer]

lemma processEvents_countSum (rs : List CommitRecord) :
    ∀ a : GitEventsAnalyzer, countSum a.contributors = a.commitTotal →
      countSum (processEvents a rs).contributors = (processEvents a rs).commitTotal := by
  induction rs with
  | nil => intro a h; exact h
  | cons r rest ih =>
    intro a h
    show countSum (processEvents (processCommit a r) rest).contributors = _
    apply ih
    simp [processCommit, bump_countSum, h]

lemma analyzerOf_countSum (rs : List CommitRecord) :
    countSum (analyzerOf rs).contributors = (analyzerOf rs).commitTotal :=
  processEvents_countSum rs emptyAnalyzer rfl

lemma insertRanked_perm (x : String × Nat) (l : List (String × Nat)) :
    (insertRanked x l).Perm (x :: l) := by
  induction l with
  | nil => exact List.Perm.refl _
  | cons y ys ih =>
    by_cases h : y.2 ≤ x.2
    · simp [insertRanked, h]
    · simp only [insertRanked, h, if_neg, not_false_iff]
      exact (List.Perm.cons y ih).trans (List.Perm.swap x y ys)

lemma ranked_perm (l : List (String × Nat)) :
    (ranked_by_count l).Perm l := by
  induction l with
  | nil => exact List.Perm.refl _
  | cons x xs ih =>
    show (insertRanked x (ranked_by_count xs)).Perm (x :: xs)
    exact (insertRanked_perm x (ranked_by_count xs)).trans (List.Perm.cons x ih)

lemma insertRanked_sorted (x : String × Nat) (l : List (String × Nat))
    (h : List.Sorted (fun a b : String × Nat => b.2 ≤ a.2) l) :
    List.Sorted (fun a b : String × Nat => b.2 ≤ a.2) (insertRanked x l) := by
  induction l with
  | nil => simp [insertRanked]
  | cons y ys ih =>
    rw [List.sorted_cons] at h
    by_cases hc : y.2 ≤ x.2
    · simp only [insertRanked, hc, if_pos]
      rw [List.sorted_cons]
      refine ⟨?_, List.sorted_cons.mpr h⟩
      intro b hb
      rcases List.mem_cons.mp hb with hb1 | hb1
      · subst hb1; exact hc
      · exact le_trans (h.1 b hb1) hc
    · simp only [insertRanked, hc, if_neg, not_false_iff]
      rw [List.sorted_cons]
      refine ⟨?_, ih h.2⟩
      intro b hb
      have hmem := (insertRanked_perm x ys).mem_iff.mp hb
      rcases List.mem_cons.mp hmem with hb2 | hb2
      · subst hb2; omega
      · exact h.1 b hb2

lemma ranked_sorted (l : List (String × Nat)) :
    List.Sorted (fun a b : String × Nat => b.2 ≤ a.2) (ranked_by_count l) := by
  induction l with
  | nil => simp [ranked_by_count]
  | cons x xs ih => exact insertRanked_sorted x (ranked_by_count xs) ih

lemma ponyWalk_least (l : List (String × Nat)) :
    ∀ (total acc : Nat), 2 * acc < total → total ≤ 2 * (acc + countSum l) →
      1 ≤ ponyWalk total l acc ∧ ponyWalk total l acc ≤ l.length ∧
      total ≤ 2 * (acc + topSum l (ponyWalk total l acc)) ∧
      ∀ i < ponyWalk total l acc, 2 * (acc + topSum l i) < total := by
  induction l with
  | nil =>
    intro total acc hacc hreach
    rw [countSum_nil] at hreach
    omega
  | cons x rest ih =>
    intro total acc hacc hreach
    by_cases hstop : total ≤ 2 * (acc + x.2)
    · have hw : ponyWalk total (x :: rest) acc = 1 := by
        simp [ponyWalk, hstop]
      rw [hw]
      refine ⟨le_refl 1, by simp, ?_, ?_⟩
      · have : topSum (x :: rest) 1 = x.2 := by
          rw [show (1 : Nat) = 0 + 1 from rfl, topSum_cons, topSum_zero]
          omega
        omega
      · intro i hi
        have : i = 0 := by omega
        subst this
        rw [topSum_zero]
        omega
    · have hw : ponyWalk total (x :: rest) acc = 1 + ponyWalk total rest (acc + x.2) := by
        simp [ponyWalk, hstop]
      have hreach2 : total ≤ 2 * ((acc + x.2) + countSum rest) := by
        rw [countSum_cons] at hreach
        omega
      obtain ⟨h1, hlen, hr, hmin⟩ := ih total (acc + x.2) (by omega) hreach2
      rw [hw]
      refine ⟨by omega, by simp; omega, ?_, ?_⟩
      · rw [show 1 + ponyWalk total rest (acc + x.2) = ponyWalk total rest (acc + x.2) + 1 from by omega,
            topSum_cons]
        omega
      · intro i hi
        cases i with
        | zero => rw [topSum_zero]; omega
        | succ j =>
          rw [topSum_cons]
          have := hmin j (by omega)
          omega

end Metrics

namespace Metrics

lemma catWalk_sum (total : Nat) (l : List (String × Nat)) :
    ∀ acc, (catWalk total l acc).1 + (catWalk total l acc).2.1 +
      (catWalk total l acc).2.2 = l.length := by
  induction l with
  | nil => intro acc; simp [catWalk]
  | cons x rest ih =>
    intro acc
    have h := ih (acc + x.2)
    simp only [catWalk, List.length_cons]
    by_cases h1 : 5 * (acc + x.2) ≤ 4 * total
    · simp only [h1, if_pos]
      omega
    · by_cases h2 : 20 * (acc + x.2) ≤ 19 * total
      · simp only [h1, h2, if_neg, if_pos, not_false_iff]
        omega
      · simp only [h1, h2, if_neg, not_false_iff]
        omega

lemma catWalk_spec (total : Nat) (l : List (String × Nat)) :
    ∀ acc : Nat,
      catWalk total l acc =
        ((List.range l.length).countP
           (fun i => decide (5 * (acc + topSum l (i + 1)) ≤ 4 * total)),
         (List.range l.length).countP
           (fun i => decide (¬5 * (acc + topSum l (i + 1)) ≤ 4 * total ∧
             20 * (acc + topSum l (i + 1)) ≤ 19 * total)),
         (List.range l.length).countP
           (fun i => decide (¬5 * (acc + topSum l (i + 1)) ≤ 4 * total ∧
             ¬20 * (acc + topSum l (i + 1)) ≤ 19 * total))) := by
  induction l with
  | nil => intro acc; simp [catWalk]
  | cons x rest ih =>
    intro acc
    rw [List.length_cons, List.range_succ_eq_map,
        List.countP_cons, List.countP_cons, List.countP_cons,
        List.countP_map, List.countP_map, List.countP_map]
    simp only [Function.comp_def, Nat.succ_eq_add_one, topSum_cons, topSum_zero,
      Nat.add_zero, ← Nat.add_assoc]
    rw [show catWalk total (x :: rest) acc =
        (if 5 * (acc + x.2) ≤ 4 * total then
          ((catWalk total rest (acc + x.2)).1 + 1, (catWalk total rest (acc + x.2)).2.1,
            (catWalk total rest (acc + x.2)).2.2)
         else if 20 * (acc + x.2) ≤ 19 * total then
          ((catWalk total rest (acc + x.2)).1, (catWalk total rest (acc + x.2)).2.1 + 1,
            (catWalk total rest (acc + x.2)).2.2)
         else
          ((catWalk total rest (acc + x.2)).1, (catWalk total rest (acc + x.2)).2.1,
            (catWalk total rest (acc + x.2)).2.2 + 1)) from by
      simp only [catWalk]]
    rw [ih (acc + x.2)]
    by_cases h1 : 5 * (acc + x.2) ≤ 4 * total
    · simp [h1]
    · by_cases h2 : 20 * (acc + x.2) ≤ 19 * total
      · simp [h1, h2]
      · simp [h1, h2]

end Metrics

namespace Metrics

lemma countSum_perm {l1 l2 : List (String × Nat)} (h : l1.Perm l2) :
    countSum l1 = countSum l2 :=
  (h.map Prod.snd).sum_eq

lemma analyzerOf_nil_of_total_zero {rs : List CommitRecord}
    (h : (analyzerOf rs).commitTotal = 0) : rs = [] := by
  rw [analyzerOf_total] at h
  exact List.length_eq_zero.mp h

lemma half_ceil (total x : Nat) : (total + 1) / 2 ≤ x ↔ total ≤ 2 * x := by
  omega

end Metrics

open Metrics

/-- Claim C1: for every ingested event set, `get_pony_factor` returns 0
when the commit count is 0, and otherwise returns the smallest `k` such
that the top-`k` entries of the descending, first-seen-tie-broken
ranking of contributors hold at least `⌈total/2⌉` commits (the ranking
being sorted descending and a permutation of the ledger); on the
reconstructed 9-commit 3-contributor fixture it returns 1, and after
three more commits from one new identity it returns 2. -/
theorem C1_pony_factor (rs : List CommitRecord) :
    (get_commit_count (analyzerOf rs) = 0 → get_pony_factor (analyzerOf rs) = 0) ∧
    (0 < get_commit_count (analyzerOf rs) →
      List.Sorted (fun a b : String × Nat => b.2 ≤ a.2)
        (ranked_by_count (analyzerOf rs).contributors) ∧
      (ranked_by_count (analyzerOf rs).contributors).Perm (analyzerOf rs).contributors ∧
      1 ≤ get_pony_factor (analyzerOf rs) ∧
      get_pony_factor (analyzerOf rs) ≤ get_contributor_count (analyzerOf rs) ∧
      (get_commit_count (analyzerOf rs) + 1) / 2 ≤
        topSum (ranked_by_count (analyzerOf rs).contributors)
          (get_pony_factor (analyzerOf rs)) ∧
      (∀ i < get_pony_factor (analyzerOf rs),
        topSum (ranked_by_count (analyzerOf rs).contributors) i <
          (get_commit_count (analyzerOf rs) + 1) / 2)) ∧
    get_pony_factor (analyzerOf fixture9) = 1 ∧
    get_pony_factor (analyzerOf (fixture9 ++ extra3)) = 2 := by
  refine ⟨?_, ?_, by decide, by decide⟩
  · intro h
    simp only [get_commit_count] at h
    simp [get_pony_factor, h]
  · intro h
    simp only [get_commit_count] at h
    have hperm := ranked_perm (analyzerOf rs).contributors
    have hsorted := ranked_sorted (analyzerOf rs).contributors
    have hsum : countSum (ranked_by_count (analyzerOf rs).contributors) =
        (analyzerOf rs).commitTotal := by
      rw [countSum_perm hperm, analyzerOf_countSum]
    have hpf : get_pony_factor (analyzerOf rs) =
        ponyWalk (analyzerOf rs).commitTotal
          (ranked_by_count (analyzerOf rs).contributors) 0 := by
      simp [get_pony_factor]
      omega
    obtain ⟨h1, hlen, hr, hmin⟩ :=
      ponyWalk_least (ranked_by_count (analyzerOf rs).contributors)
        (analyzerOf rs).commitTotal 0 (by omega) (by omega)
    refine ⟨hsorted, hperm, ?_, ?_, ?_, ?_⟩
    · omega
    · rw [hpf]
      calc ponyWalk (analyzerOf rs).commitTotal
            (ranked_by_count (analyzerOf rs).contributors) 0
          ≤ (ranked_by_count (analyzerOf rs).contributors).length := hlen
        _ = (analyzerOf rs).contributors.length := hperm.length_eq
    · rw [hpf, half_ceil]
      simp only [get_commit_count]
      omega
    · intro i hi
      rw [hpf] at hi
      have := hmin i hi
      simp only [get_commit_count]
      omega

/-- Claim C2: for every ingested event set, `get_developer_categories`
walks the contributors ranked by descending commit count and counts as
`core` those whose cumulative share of total commits after inclusion is
at most 0.80 (`5 * cum ≤ 4 * total`), as `regular` those not core with
share at most 0.95 (`20 * cum ≤ 19 * total`), and as `casual` the rest;
the three counts always sum to `get_contributor_count`, are all zero
when no commits were processed, and on the fixture give (1, 1, 1),
becoming (2, 1, 1) after four more commits from one new identity. -/
theorem C2_developer_categories (rs : List CommitRecord) :
    ((get_developer_categories (analyzerOf rs)).1 +
      (get_developer_categories (analyzerOf rs)).2.1 +
      (get_developer_categories (analyzerOf rs)).2.2 =
        get_contributor_count (analyzerOf rs)) ∧
    (get_commit_count (analyzerOf rs) = 0 →
      get_developer_categories (analyzerOf rs) = (0, 0, 0)) ∧
    (0 < get_commit_count (analyzerOf rs) →
      get_developer_categories (analyzerOf rs) =
        ((List.range (get_contributor_count (analyzerOf rs))).countP
           (fun i => decide
             (5 * topSum (ranked_by_count (analyzerOf rs).contributors) (i + 1) ≤
               4 * get_commit_count (analyzerOf rs))),
         (List.range (get_contributor_count (analyzerOf rs))).countP
           (fun i => decide
             (¬5 * topSum (ranked_by_count (analyzerOf rs).contributors) (i + 1) ≤
                 4 * get_commit_count (analyzerOf rs) ∧
               20 * topSum (ranked_by_count (analyzerOf rs).contributors) (i + 1) ≤
                 19 * get_commit_count (analyzerOf rs))),
         (List.range (get_contributor_count (analyzerOf rs))).countP
           (fun i => decide
             (¬5 * topSum (ranked_by_count (analyzerOf rs).contributors) (i + 1) ≤
                 4 * get_commit_count (analyzerOf rs) ∧
               ¬20 * topSum (ranked_by_count (analyzerOf rs).contributors) (i + 1) ≤
                 19 * get_commit_count (analyzerOf rs))))) ∧
    get_developer_categories (analyzerOf fixture9) = (1, 1, 1) ∧
    get_developer_categories (analyzerOf (fixture9 ++ extra4)) = (2, 1, 1) := by
  have hlen : (ranked_by_count (analyzerOf rs).contributors).length =
      (analyzerOf rs).contributors.length :=
    (ranked_perm (analyzerOf rs).contributors).length_eq
  refine ⟨?_, ?_, ?_, by decide, by decide⟩
  · by_cases h : (analyzerOf rs).commitTotal = 0
    · have hnil := analyzerOf_nil_of_total_zero h
      subst hnil
      decide
    · have hcat : get_developer_categories (analyzerOf rs) =
          catWalk (analyzerOf rs).commitTotal
            (ranked_by_count (analyzerOf rs).contributors) 0 := by
        simp [get_developer_categories, h]
      rw [hcat, catWalk_sum, hlen]
      rfl
  · intro h
    simp only [get_commit_count] at h
    simp [get_developer_categories, h]
  · intro h
    simp only [get_commit_count] at h
    have hcat : get_developer_categories (analyzerOf rs) =
        catWalk (analyzerOf rs).commitTotal
          (ranked_by_count (analyzerOf rs).contributors) 0 := by
      simp [get_developer_categories]
      omega
    rw [hcat, catWalk_spec]
    simp only [get_contributor_count, get_commit_count, ← hlen, Nat.zero_add]

/-- Claim C3: on an engine whose commit count is 0 every query returns
its neutral default instead of raising: pony factor 0, elephant factor
0, all-zero developer categories, zero commit-size totals and an empty
file-type mapping. -/
theorem C3_empty_defaults (rs : List CommitRecord)
    (h : get_commit_count (analyzerOf rs) = 0) :
    get_pony_factor (analyzerOf rs) = 0 ∧
    get_elephant_factor (analyzerOf rs) = 0 ∧
    get_developer_categories (analyzerOf rs) = (0, 0, 0) ∧
    get_commit_size_metrics (analyzerOf rs) = (0, 0) ∧
    get_file_type_metrics (analyzerOf rs) = [] := by
  have hnil := analyzerOf_nil_of_total_zero h
  subst hnil
  exact ⟨rfl, rfl, rfl, rfl, rfl⟩

/-- Claim C3 witness: `C3_empty_defaults` instantiated at the empty
event set, whose commit count is 0. -/
theorem C3_witness :
    get_commit_count (analyzerOf []) = 0 ∧
    get_pony_factor (analyzerOf []) = 0 ∧
    get_elephant_factor (analyzerOf []) = 0 ∧
    get_developer_categories (analyzerOf []) = (0, 0, 0) ∧
    get_commit_size_metrics (analyzerOf []) = (0, 0) ∧
    get_file_type_metrics (analyzerOf []) = [] :=
  ⟨rfl, C3_empty_defaults [] rfl⟩

/-- Claim C4: for every ingested event set, `get_average_commits_week`
returns `commit_count / days_interval / 7` for every positive
`days_interval` (9/30/7 on the fixture with interval 30) and raises a
divide-by-zero error (`Except.error ()`) for `days_interval = 0` rather
than being silently guarded. -/
theorem C4_average_commits_week (rs : List CommitRecord) (d : Nat) :
    (0 < d → get_average_commits_week (analyzerOf rs) d =
      Except.ok ((get_commit_count (analyzerOf rs) : ℚ) / (d : ℚ) / 7)) ∧
    (d = 0 → get_average_commits_week (analyzerOf rs) d = Except.error ()) ∧
    get_average_commits_week (analyzerOf fixture9) 30 =
      Except.ok ((9 : ℚ) / 30 / 7) := by
  refine ⟨?_, ?_, by rfl⟩
  · intro h
    simp [get_average_commits_week, get_commit_count]
    omega
  · intro h
    simp [get_average_commits_week, h]

/-- Claim C4 witness: `C4_average_commits_week` instantiated at the
9-commit fixture with intervals 30 and 0. -/
theorem C4_witness :
    get_average_commits_week (analyzerOf fixture9) 30 =
      Except.ok ((get_commit_count (analyzerOf fixture9) : ℚ) / (30 : ℚ) / 7) ∧
    get_average_commits_week (analyzerOf fixture9) 0 = Except.error () :=
  ⟨(C4_average_commits_week fixture9 30).1 (by decide),
   (C4_average_commits_week fixture9 0).2.1 rfl⟩

/-- Claim C1 witness: the positive-total part of `C1_pony_factor`
instantiated at the 9-commit fixture. -/
theorem C1_witness :
    1 ≤ get_pony_factor (analyzerOf fixture9) ∧
    get_pony_factor (analyzerOf fixture9) ≤ get_contributor_count (analyzerOf fixture9) :=
  ⟨((C1_pony_factor fixture9).2.1 (by decide)).2.2.1,
   ((C1_pony_factor fixture9).2.1 (by decide)).2.2.2.1⟩

/-- Claim C2 witness: the zero-commit part of `C2_developer_categories`
instantiated at the empty event set. -/
theorem C2_witness :
    get_developer_categories (analyzerOf []) = (0, 0, 0) :=
  (C2_developer_categories []).2.1 rfl

namespace Client

lemma reconnectClient_token (c : ClientState) :
    (reconnectClient c).token = c.token := rfl

lemma reconnectClient_refreshToken (c : ClientState) :
    (reconnectClient c).refreshToken = c.refreshToken := rfl

lemma reconnectClient_idem (c : ClientState) :
    reconnectClient (reconnectClient c) = reconnectClient c := rfl

lemma sessionAuth_reconnect (c : ClientState) :
    sessionAuth (reconnectClient c) = reconnectAuth c := rfl

lemma reconnectAuth_reconnect (c : ClientState) :
    reconnectAuth (reconnectClient c) = reconnectAuth c := rfl

lemma attemptLoop_step_conn (server : Nat → Outcome)
    (dr : MState → Option ReqError × MState) (method uri : String)
    (r attempt : Nat) (last : Option ReqError) (st : MState) (id : Nat)
    (h : server st.count = Outcome.connErr id) :
    attemptLoop server dr method uri (r + 1) attempt last st =
      attemptLoop server dr method uri r (attempt + 1)
        (some (ReqError.connectionError id))
        { afterRequest st method uri with
           client := reconnectClient st.client,
           sleeps := st.sleeps ++ [2 ^ attempt] } := by
  simp only [attemptLoop, doRequest, h, afterRequest]

lemma attemptLoop_step_timeout (server : Nat → Outcome)
    (dr : MState → Option ReqError × MState) (method uri : String)
    (r attempt : Nat) (last : Option ReqError) (st : MState) (id : Nat)
    (h : server st.count = Outcome.timeout id) :
    attemptLoop server dr method uri (r + 1) attempt last st =
      attemptLoop server dr method uri r (attempt + 1)
        (some (ReqError.timeoutError id))
        { afterRequest st method uri with
           client := reconnectClient st.client,
           sleeps := st.sleeps ++ [2 ^ attempt] } := by
  simp only [attemptLoop, doRequest, h, afterRequest]

lemma attemptLoop_step_ok (server : Nat → Outcome)
    (dr : MState → Option ReqError × MState) (method uri : String)
    (r attempt : Nat) (last : Option ReqError) (st : MState) (resp : Response)
    (h : server st.count = Outcome.reply resp) (hok : resp.status < 400) :
    attemptLoop server dr method uri (r + 1) attempt last st =
      (Except.ok (some resp), afterRequest st method uri) := by
  simp only [attemptLoop, doRequest, h, afterRequest, hok, if_pos]

lemma attemptLoop_step_err (server : Nat → Outcome)
    (dr : MState → Option ReqError × MState) (method uri : String)
    (r attempt : Nat) (last : Option ReqError) (st : MState) (resp : Response)
    (h : server st.count = Outcome.reply resp) (herr : ¬resp.status < 400)
    (hguard : (resp.status == 403 && truthy st.client.refreshToken) = false) :
    attemptLoop server dr method uri (r + 1) attempt last st =
      (Except.ok (some resp), afterRequest st method uri) := by
  simp only [attemptLoop, doRequest, afterRequest, h, herr, if_neg, not_false_iff]
  simp [hguard]

lemma attemptLoop_step_refresh (server : Nat → Outcome)
    (dr : MState → Option ReqError × MState) (method uri : String)
    (r attempt : Nat) (last : Option ReqError) (st : MState) (resp : Response)
    (h : server st.count = Outcome.reply resp) (herr : ¬resp.status < 400)
    (hguard : (resp.status == 403 && truthy st.client.refreshToken) = true) :
    attemptLoop server dr method uri (r + 1) attempt last st =
      (match dr (afterRequest st method uri) with
       | (some e, st2) => (Except.error e, st2)
       | (none, st2) => (Except.ok (some resp), st2)) := by
  simp only [attemptLoop, doRequest, afterRequest, h, herr, if_neg, not_false_iff]
  simp [hguard]

lemma makeRequest_session (fuel : Nat) (server : Nat → Outcome) (st : MState)
    (method uri : String) (s : Session) (h : st.client.session = some s) :
    makeRequest (fuel + 1) server st method uri =
      attemptLoop server
        (refreshAuthToken fun s2 => makeRequest fuel server s2 "post" "token/refresh/")
        method uri 5 0 none st := by
  simp only [makeRequest, h, MAX_RETRIES]

lemma attemptLoop_transport (server : Nat → Outcome)
    (dr : MState → Option ReqError × MState) (method uri : String) :
    ∀ (r attempt : Nat) (last : Option ReqError) (st : MState) (e : ReqError),
      (∀ i, i < r + 1 → (transportExc (server (st.count + i))).isSome = true) →
      transportExc (server (st.count + r)) = some e →
      attemptLoop server dr method uri (r + 1) attempt last st =
        (Except.error e,
         { client := reconnectClient st.client,
           count := st.count + (r + 1),
           reqLog := st.reqLog ++ ⟨method, uri, sessionAuth st.client⟩ ::
             List.replicate r ⟨method, uri, reconnectAuth st.client⟩,
           sleeps := st.sleeps ++ (List.range' attempt (r + 1)).map (2 ^ ·) }) := by
  intro r
  induction r with
  | zero =>
    intro attempt last st e hall hlast
    rw [Nat.add_zero] at hlast
    cases h0 : server st.count with
    | reply resp =>
      rw [h0] at hlast
      simp [transportExc] at hlast
    | connErr id =>
      rw [h0] at hlast
      simp only [transportExc, Option.some.injEq] at hlast
      rw [attemptLoop_step_conn server dr method uri 0 attempt last st id h0]
      simp only [attemptLoop]
      subst hlast
      simp [afterRequest, List.range']
    | timeout id =>
      rw [h0] at hlast
      simp only [transportExc, Option.some.injEq] at hlast
      rw [attemptLoop_step_timeout server dr method uri 0 attempt last st id h0]
      simp only [attemptLoop]
      subst hlast
      simp [afterRequest, List.range']
  | succ n ih =>
    intro attempt last st e hall hlast
    cases h0 : server st.count with
    | reply resp =>
      have := hall 0 (by omega)
      rw [Nat.add_zero, h0] at this
      simp [transportExc] at this
    | connErr id =>
      rw [attemptLoop_step_conn server dr method uri (n + 1) attempt last st id h0]
      rw [ih (attempt + 1) (some (ReqError.connectionError id))
        { afterRequest st method uri with
           client := reconnectClient st.client,
           sleeps := st.sleeps ++ [2 ^ attempt] } e
        (by
          intro i hi
          have := hall (i + 1) (by omega)
          simp only [afterRequest]
          rw [show st.count + 1 + i = st.count + (i + 1) from by omega]
          exact this)
        (by
          simp only [afterRequest]
          rw [show st.count + 1 + n = st.count + (n + 1) from by omega]
          exact hlast)]
      simp only [afterRequest, reconnectClient_idem, sessionAuth_reconnect,
        reconnectAuth_reconnect]
      refine congrArg _ ?_
      simp only [MState.mk.injEq]
      refine ⟨trivial, by omega, ?_, ?_⟩
      · rw [List.append_assoc]
        simp [List.replicate_succ]
      · rw [List.append_assoc]
        rw [show List.range' attempt (n + 1 + 1) = attempt :: List.range' (attempt + 1) (n + 1)
          from List.range'_succ attempt (n + 1) 1]
        simp
    | timeout id =>
      rw [attemptLoop_step_timeout server dr method uri (n + 1) attempt last st id h0]
      rw [ih (attempt + 1) (some (ReqError.timeoutError id))
        { afterRequest st method uri with
           client := reconnectClient st.client,
           sleeps := st.sleeps ++ [2 ^ attempt] } e
        (by
          intro i hi
          have := hall (i + 1) (by omega)
          simp only [afterRequest]
          rw [show st.count + 1 + i = st.count + (i + 1) from by omega]
          exact this)
        (by
          simp only [afterRequest]
          rw [show st.count + 1 + n = st.count + (n + 1) from by omega]
          exact hlast)]
      simp only [afterRequest, reconnectClient_idem, sessionAuth_reconnect,
        reconnectAuth_reconnect]
      refine congrArg _ ?_
      simp only [MState.mk.injEq]
      refine ⟨trivial, by omega, ?_, ?_⟩
      · rw [List.append_assoc]
        simp [List.replicate_succ]
      · rw [List.append_assoc]
        rw [show List.range' attempt (n + 1 + 1) = attempt :: List.range' (attempt + 1) (n + 1)
          from List.range'_succ attempt (n + 1) 1]
        simp

lemma attemptLoop_count_le (server : Nat → Outcome)
    (dr : MState → Option ReqError × MState) (method uri : String) :
    ∀ (r attempt : Nat) (last : Option ReqError) (st : MState),
      truthy st.client.refreshToken = false →
      (attemptLoop server dr method uri r attempt last st).2.count ≤ st.count + r := by
  intro r
  induction r with
  | zero =>
    intro attempt last st h
    cases last <;> simp [attemptLoop]
  | succ n ih =>
    intro attempt last st h
    cases h0 : server st.count with
    | reply resp =>
      by_cases hok : resp.status < 400
      · rw [attemptLoop_step_ok server dr method uri n attempt last st resp h0 hok]
        simp [afterRequest]
      · have hguard : (resp.status == 403 && truthy st.client.refreshToken) = false := by
          simp [h]
        rw [attemptLoop_step_err server dr method uri n attempt last st resp h0 hok hguard]
        simp [afterRequest]
    | connErr id =>
      rw [attemptLoop_step_conn server dr method uri n attempt last st id h0]
      have := ih (attempt + 1) (some (ReqError.connectionError id))
        { afterRequest st method uri with
           client := reconnectClient st.client,
           sleeps := st.sleeps ++ [2 ^ attempt] }
        (by simpa [afterRequest, reconnectClient_refreshToken] using h)
      simp only [afterRequest] at this ⊢
      omega
    | timeout id =>
      rw [attemptLoop_step_timeout server dr method uri n attempt last st id h0]
      have := ih (attempt + 1) (some (ReqError.timeoutError id))
        { afterRequest st method uri with
           client := reconnectClient st.client,
           sleeps := st.sleeps ++ [2 ^ attempt] }
        (by simpa [afterRequest, reconnectClient_refreshToken] using h)
      simp only [afterRequest] at this ⊢
      omega

lemma makeRequest_count_le (fuel : Nat) (server : Nat → Outcome) (st : MState)
    (method uri : String) (h : truthy st.client.refreshToken = false) :
    (makeRequest (fuel + 1) server st method uri).2.count ≤ st.count + MAX_RETRIES := by
  cases hs : st.client.session with
  | none => simp [makeRequest, hs]
  | some s =>
    rw [makeRequest_session fuel server st method uri s hs]
    exact attemptLoop_count_le server _ method uri 5 0 none st h

lemma makeRequest_403_refresh (fuel : Nat) (server : Nat → Outcome) (st : MState)
    (method uri : String) (s : Session) (resp rresp : Response)
    (hs : st.client.session = some s)
    (hrt : truthy st.client.refreshToken = true)
    (h0 : server st.count = Outcome.reply resp)
    (h403 : resp.status = 403)
    (h1 : server (st.count + 1) = Outcome.reply rresp)
    (hne : rresp.status ≠ 403) :
    makeRequest (fuel + 2) server st method uri =
      (if 400 ≤ rresp.status then
        (Except.error (ReqError.httpExc rresp),
         afterRequest (afterRequest st method uri) "post" "token/refresh/")
       else
        (Except.ok (some resp),
         { client := updateAfterRefresh st.client rresp,
           count := st.count + 2,
           reqLog := st.reqLog ++ [⟨method, uri, sessionAuth st.client⟩,
             ⟨"post", "token/refresh/", sessionAuth st.client⟩],
           sleeps := st.sleeps })) := by
  rw [show fuel + 2 = (fuel + 1) + 1 from rfl]
  rw [makeRequest_session (fuel + 1) server st method uri s hs]
  rw [show (5 : Nat) = 4 + 1 from rfl]
  rw [attemptLoop_step_refresh server _ method uri 4 0 none st resp h0
    (by omega) (by simp [h403, hrt])]
  have hmk : makeRequest (fuel + 1) server (afterRequest st method uri)
      "post" "token/refresh/" =
      (Except.ok (some rresp),
       afterRequest (afterRequest st method uri) "post" "token/refresh/") := by
    rw [makeRequest_session fuel server (afterRequest st method uri)
      "post" "token/refresh/" s (by simpa [afterRequest] using hs)]
    rw [show (5 : Nat) = 4 + 1 from rfl]
    by_cases hrok : rresp.status < 400
    · exact attemptLoop_step_ok server _ "post" "token/refresh/" 4 0 none _ rresp
        (by simpa [afterRequest] using h1) hrok
    · exact attemptLoop_step_err server _ "post" "token/refresh/" 4 0 none _ rresp
        (by simpa [afterRequest] using h1) hrok
        (by simp [hne])
  simp only [refreshAuthToken, hmk]
  by_cases herr2 : 400 ≤ rresp.status
  · simp [herr2]
  · simp only [herr2, if_neg, not_false_iff, if_false]
    simp [afterRequest, updateAfterRefresh, sessionAuth]

end Client

open Client

/-- Claim C5 counterexample: with a held refresh token, a 403 reply to
the first request and a successful token refresh on the second,
`makeRequest` returns the original 403 response after issuing exactly
two requests; the retried request the claim predicts (request counter 2,
which would succeed with status 200) is never issued, so the caller
receives the 403 response and not the success. -/
theorem C5_counterexample :
    (makeRequest 2 serverRefreshOk cexState "get" "items").1 =
      Except.ok (some ⟨403, none, none⟩) ∧
    (makeRequest 2 serverRefreshOk cexState "get" "items").2.count = 2 ∧
    serverRefreshOk 2 = Outcome.reply ⟨200, none, none⟩ :=
  ⟨rfl, rfl, rfl⟩

/-- Claim C5 (amended): when a request receives a 403 response and the
client holds a truthy refresh token, the client refreshes its access
token once — posting to `token/refresh/`, storing the `access` field of
the refresh reply and updating the session's `Authorization` header —
and then returns the original 403 response to the caller without
retrying the request. -/
theorem C5_refresh_no_retry (fuel : Nat) (server : Nat → Outcome) (st : MState)
    (method uri : String) (s : Session) (resp rresp : Response)
    (hs : st.client.session = some s)
    (hrt : truthy st.client.refreshToken = true)
    (h0 : server st.count = Outcome.reply resp)
    (h403 : resp.status = 403)
    (h1 : server (st.count + 1) = Outcome.reply rresp)
    (hrok : rresp.status < 400) :
    makeRequest (fuel + 2) server st method uri =
      (Except.ok (some resp),
       { client := updateAfterRefresh st.client rresp,
         count := st.count + 2,
         reqLog := st.reqLog ++ [⟨method, uri, sessionAuth st.client⟩,
           ⟨"post", "token/refresh/", sessionAuth st.client⟩],
         sleeps := st.sleeps }) := by
  rw [makeRequest_403_refresh fuel server st method uri s resp rresp hs hrt h0 h403 h1
    (by omega)]
  simp [show ¬400 ≤ rresp.status from by omega]

/-- Claim C5 witness: `C5_refresh_no_retry` instantiated at the
connected client and the 403-then-successful-refresh server script. -/
theorem C5_witness :
    makeRequest 2 serverRefreshOk cexState "get" "items" =
      (Except.ok (some ⟨403, none, none⟩),
       { client := updateAfterRefresh cexState.client ⟨200, some "T1", none⟩,
         count := cexState.count + 2,
         reqLog := cexState.reqLog ++ [⟨"get", "items", sessionAuth cexState.client⟩,
           ⟨"post", "token/refresh/", sessionAuth cexState.client⟩],
         sleeps := cexState.sleeps }) :=
  C5_refresh_no_retry 0 serverRefreshOk cexState "get" "items" ⟨some "Bearer T0"⟩
    ⟨403, none, none⟩ ⟨200, some "T1", none⟩ rfl rfl rfl rfl rfl (by decide)

/-- Claim C6: when every one of the `MAX_RETRIES` attempts of a request
raises a connection or timeout error, `makeRequest` raises the transport
error of the last attempt unchanged — the exception returned is exactly
the one the final wire request produced. -/
theorem C6_transport_exhaustion (fuel : Nat) (server : Nat → Outcome) (st : MState)
    (method uri : String) (s : Session) (e : ReqError)
    (hs : st.client.session = some s)
    (hall : ∀ i, i < MAX_RETRIES → (transportExc (server (st.count + i))).isSome = true)
    (hlast : transportExc (server (st.count + (MAX_RETRIES - 1))) = some e) :
    (makeRequest (fuel + 1) server st method uri).1 = Except.error e := by
  rw [makeRequest_session fuel server st method uri s hs]
  rw [show (5 : Nat) = 4 + 1 from rfl]
  rw [attemptLoop_transport server _ method uri 4 0 none st e
    (fun i hi => hall i hi) hlast]

/-- Claim C6 witness: `C6_transport_exhaustion` instantiated at a
server script raising a connection error with identity `n + 10` at
counter `n`; the fifth and last attempt's error (identity 14) is
raised. -/
theorem C6_witness :
    (makeRequest 1 serverConnFail cexState "get" "items").1 =
      Except.error (ReqError.connectionError 14) :=
  C6_transport_exhaustion 0 serverConnFail cexState "get" "items" ⟨some "Bearer T0"⟩
    (ReqError.connectionError 14) rfl (by decide) rfl

/-- Claim C7: `MAX_RETRIES = 5`; when every attempt raises a transport
error the client issues exactly 5 wire requests — the first with the
original session header and the remaining four after reconnecting with a
fresh session carrying the current bearer token if one is held — and
sleeps `2 ^ attempt` after the attempt numbered `attempt` (delays 1, 2,
4, 8, 16); moreover, whenever no truthy refresh token is held, a request
issues at most `MAX_RETRIES` wire requests. -/
theorem C7_retry_reconnect_backoff (fuel : Nat) (server : Nat → Outcome) (st : MState)
    (method uri : String) (s : Session)
    (hs : st.client.session = some s)
    (hall : ∀ i, i < MAX_RETRIES → (transportExc (server (st.count + i))).isSome = true) :
    MAX_RETRIES = 5 ∧
    (makeRequest (fuel + 1) server st method uri).2 =
      { client := reconnectClient st.client,
        count := st.count + MAX_RETRIES,
        reqLog := st.reqLog ++ ⟨method, uri, sessionAuth st.client⟩ ::
          List.replicate 4 ⟨method, uri, reconnectAuth st.client⟩,
        sleeps := st.sleeps ++ [1, 2, 4, 8, 16] } ∧
    (∀ (fuel2 : Nat) (server2 : Nat → Outcome) (st2 : MState) (method2 uri2 : String),
      truthy st2.client.refreshToken = false →
      (makeRequest (fuel2 + 1) server2 st2 method2 uri2).2.count ≤
        st2.count + MAX_RETRIES) := by
  refine ⟨rfl, ?_,
    fun fuel2 server2 st2 method2 uri2 h =>
      makeRequest_count_le fuel2 server2 st2 method2 uri2 h⟩
  obtain ⟨e, he⟩ := Option.isSome_iff_exists.mp (hall 4 (by decide))
  rw [makeRequest_session fuel server st method uri s hs]
  rw [show (5 : Nat) = 4 + 1 from rfl]
  rw [attemptLoop_transport server _ method uri 4 0 none st e
    (fun i hi => hall i hi) he]
  rfl

/-- Claim C7 witness: the all-transport-failure part of
`C7_retry_reconnect_backoff` instantiated at the connection-error server
script: 5 logged requests and sleeps 1, 2, 4, 8, 16. -/
theorem C7_witness :
    (makeRequest 1 serverConnFail cexState "get" "items").2 =
      { client := reconnectClient cexState.client,
        count := cexState.count + MAX_RETRIES,
        reqLog := cexState.reqLog ++ ⟨"get", "items", sessionAuth cexState.client⟩ ::
          List.replicate 4 ⟨"get", "items", reconnectAuth cexState.client⟩,
        sleeps := cexState.sleeps ++ [1, 2, 4, 8, 16] } :=
  (C7_retry_reconnect_backoff 0 serverConnFail cexState "get" "items"
    ⟨some "Bearer T0"⟩ rfl (by decide)).2.1

/-- Claim C8: calling `get` or `post` (via `_make_request`) while
`session` is `None` raises a `ValueError` and leaves the execution state
untouched — no wire request, no retry, no client-state change. -/
theorem C8_requires_connect (fuel : Nat) (server : Nat → Outcome) (st : MState)
    (method uri : String) (h : st.client.session = none) :
    makeRequest (fuel + 1) server st method uri =
      (Except.error ReqError.valueError, st) := by
  simp [makeRequest, h]

/-- Claim C8 witness: `C8_requires_connect` instantiated at a freshly
constructed, never-connected client. -/
theorem C8_witness :
    makeRequest 1 serverRefreshOk (initMState (clientInit "http://gl" none none))
      "get" "items" =
      (Except.error ReqError.valueError, initMState (clientInit "http://gl" none none)) :=
  C8_requires_connect 0 serverRefreshOk (initMState (clientInit "http://gl" none none))
    "get" "items" rfl

/-- Claim C9 counterexample: with a held refresh token, a 403 reply to
the first request and a 500 reply to the token-refresh request,
`makeRequest` raises an `HTTPError` carrying the 500 response (from
`raise_for_status` inside `_refresh_auth_token`) instead of returning
the 403 error response to the caller. -/
theorem C9_counterexample :
    (makeRequest 2 serverRefreshFail cexState "get" "items").1 =
      Except.error (ReqError.httpExc ⟨500, none, none⟩) := rfl

/-- Claim C9 (amended): when the server answers a request with an HTTP
error status, `makeRequest` returns that error response at its first
occurrence with no further attempts of the retry loop — except in the
403-with-truthy-refresh-token case, where a token refresh is attempted
first: if the refresh reply has a non-error status the original 403
response is still returned, but if the refresh reply itself has an error
status the refresh's `raise_for_status` exception propagates instead of
the 403 response being returned. -/
theorem C9_error_response_policy (fuel : Nat) (server : Nat → Outcome) (st : MState)
    (method uri : String) (s : Session) (resp : Response)
    (hs : st.client.session = some s)
    (h0 : server st.count = Outcome.reply resp)
    (herr : 400 ≤ resp.status) :
    ((resp.status == 403 && truthy st.client.refreshToken) = false →
      makeRequest (fuel + 1) server st method uri =
        (Except.ok (some resp), afterRequest st method uri)) ∧
    (∀ rresp : Response,
      resp.status = 403 → truthy st.client.refreshToken = true →
      server (st.count + 1) = Outcome.reply rresp → rresp.status ≠ 403 →
      ((rresp.status < 400 →
        (makeRequest (fuel + 2) server st method uri).1 = Except.ok (some resp)) ∧
       (400 ≤ rresp.status →
        (makeRequest (fuel + 2) server st method uri).1 =
          Except.error (ReqError.httpExc rresp)))) := by
  constructor
  · intro hguard
    rw [makeRequest_session fuel server st method uri s hs]
    rw [show (5 : Nat) = 4 + 1 from rfl]
    exact attemptLoop_step_err server _ method uri 4 0 none st resp h0 (by omega) hguard
  · intro rresp h403 hrt h1 hne
    have h := makeRequest_403_refresh fuel server st method uri s resp rresp hs hrt
      h0 h403 h1 hne
    constructor
    · intro hrok
      rw [h]
      simp [show ¬400 ≤ rresp.status from by omega]
    · intro hrerr
      rw [h]
      simp [hrerr]

/-- Claim C9 witness: the no-refresh part of
`C9_error_response_policy` instantiated at an all-404 server: the 404
response is returned after a single request. -/
theorem C9_witness :
    makeRequest 1 server404 cexState "get" "items" =
      (Except.ok (some ⟨404, none, none⟩), afterRequest cexState "get" "items") :=
  (C9_error_response_policy 0 server404 cexState "get" "items" ⟨some "Bearer T0"⟩
    ⟨404, none, none⟩ rfl rfl (by decide)).1 (by decide)

/-- Claim C10: `connect` on a client whose user or password is unset
installs a fresh session and returns at once: no token request is
issued, `_token` and `_refresh_token` stay `None`, and the session
carries no `Authorization` header, so subsequent requests are sent
unauthenticated. -/
theorem C10_connect_without_credentials (url : String) (user password : Option String)
    (fuel : Nat) (server : Nat → Outcome) (h : user = none ∨ password = none) :
    connect fuel server (initMState (clientInit url user password)) =
      (none,
       { client := ⟨url, user, password, some ⟨none⟩, none, none⟩,
         count := 0, reqLog := [], sleeps := [] }) ∧
    sessionAuth (⟨url, user, password, some ⟨none⟩, none, none⟩ : ClientState) = none := by
  refine ⟨?_, rfl⟩
  rcases h with h | h
  · subst h
    simp [connect, initMState, clientInit, truthy]
  · subst h
    simp [connect, initMState, clientInit, truthy]

/-- Claim C10 witness: `C10_connect_without_credentials` instantiated
at a client with no user. -/
theorem C10_witness :
    connect 3 serverRefreshOk (initMState (clientInit "http://gl" none (some "pw"))) =
      (none,
       { client := ⟨"http://gl", none, some "pw", some ⟨none⟩, none, none⟩,
         count := 0, reqLog := [], sleeps := [] }) :=
  (C10_connect_without_credentials "http://gl" none (some "pw") 3 serverRefreshOk
    (Or.inl rfl)).1
